import Mathlib

/-!
Verification of the katago-server supervision and request-multiplexing core.

Shallow embedding of `src/analysis_engine.rs`, `src/error.rs`, `src/config.rs`
and the request shape of `src/api.rs`.  Rust machine integers are modelled as
`Nat` with explicit wrapping (`% 256` for `u8`) where overflow matters;
`f32` values appearing in the rules/komi logic are modelled as `ℚ` (every
value the claims touch is exactly representable and the operations involved
are exact there); fallible operations return `Option`/`Except`.  Byte length
and char length of Rust strings coincide on ASCII strings; all concrete
inputs used below are ASCII.
-/

namespace KatagoServer

/-- JSON values as produced by `serde_json::Value` (numbers as `ℚ`). -/
inductive JsonVal : Type
  | null : JsonVal
  | bool (b : Bool) : JsonVal
  | str (s : String) : JsonVal
  | num (q : ℚ) : JsonVal
  | arr (xs : List JsonVal) : JsonVal
  | obj (fields : List (String × JsonVal)) : JsonVal

/-- `serde_json::Value::get(key)` on an object: first binding for the key
(objects the engine emits have distinct keys). Non-objects yield `none`. -/
def jsonGet : JsonVal → String → Option JsonVal
  | .obj fields, k => (fields.find? (fun f => f.1 = k)).map (·.2)
  | _, _ => none

/-- Escape of one character inside a JSON string literal (quote and
backslash; control-character escapes are not needed by any input below). -/
def escapeJsonChar (c : Char) : String :=
  if c = '"' then "\\\"" else if c = '\\' then "\\\\" else String.singleton c

/-- Rendering of a JSON value, modelling `serde_json`'s `Display` (compact).
Float formatting is abstracted to exact rational rendering; no claim
depends on the rendering of numbers, arrays or objects. -/
def jsonToString : JsonVal → String
  | .null => "null"
  | .bool b => cond b "true" "false"
  | .str s => "\"" ++ String.join (s.data.map escapeJsonChar) ++ "\""
  | .num q => if q.den = 1 then toString q.num else toString q
  | .arr xs => "[" ++ String.intercalate "," (xs.attach.map (fun x => jsonToString x.1)) ++ "]"
  | .obj fields =>
      "\x7b" ++
        String.intercalate ","
          (fields.attach.map (fun f => "\"" ++ f.1.1 ++ "\":" ++ jsonToString f.1.2)) ++
      "\x7d"
decreasing_by
  · simp_wf
    have := List.sizeOf_lt_of_mem x.2
    omega
  · obtain ⟨⟨k, v⟩, hf⟩ := f
    simp_wf
    have := List.sizeOf_lt_of_mem hf
    simp [Prod.mk.sizeOf_spec] at this
    omega

/-- `KatagoError` from `src/error.rs`. -/
inductive KatagoError : Type
  | processStartFailed (msg : String)
  | processDied
  | timeout (secs : Nat)
  | parseError (msg : String)
  | ioError (msg : String)
  | invalidCommand (msg : String)
  | responseError (msg : String)
deriving Repr, DecidableEq

/-- `KatagoConfig` from `src/config.rs` (plus the optional human-model path
referenced by `analysis_engine.rs`). -/
structure KatagoConfig : Type where
  katagoPath : String
  modelPath : String
  humanModelPath : Option String
  configPath : String
  moveTimeoutSecs : Nat
deriving Repr, DecidableEq

/-! ### Pending-request table

`pending_requests : HashMap<String, oneshot::Sender<String>>`.  Senders are
modelled as opaque `Nat` tokens.  The map is modelled as an association
list whose operations remove every binding of the key they touch, which is
extensionally the behaviour of `HashMap` (keys are unique there). -/

abbrev Slot := Nat

abbrev PendingTable := List (String × Slot)

/-- `HashMap::insert`: the new binding replaces any existing one. -/
def tableInsert (t : PendingTable) (id : String) (s : Slot) : PendingTable :=
  (id, s) :: t.filter (fun e => e.1 ≠ id)

/-- `HashMap::remove`. -/
def tableRemove (t : PendingTable) (id : String) : PendingTable :=
  t.filter (fun e => e.1 ≠ id)

/-- `HashMap::get`. -/
def tableLookup (t : PendingTable) (id : String) : Option Slot :=
  (t.find? (fun e => e.1 = id)).map (·.2)

/-- The registration step at the top of `wait_for_response`
(`requests.insert(id.to_string(), tx)`): it has no failure path; a
pre-existing sender for the same id is replaced (and thereby dropped). -/
def registerWaiter (t : PendingTable) (id : String) (slot : Slot) :
    PendingTable × Except KatagoError Unit :=
  (tableInsert t id slot, .ok ())

/-! ### Response decoding

`serde_json::from_str::<AnalysisResult>` on a delivered line, embedded as a
parser from `JsonVal`.  Field semantics follow serde:
unknown fields are ignored, `#[serde(default)]` fields default when missing,
fields without a default are required, `Option<T>` fields accept `null`,
`u32` fields require an integral number in `[0, 2^32)`, `f32` fields accept
any number. -/

/-- `serde` string field. -/
def parseStr : JsonVal → Option String
  | .str s => some s
  | _ => none

/-- `serde` `f32` field (any JSON number). -/
def parseF32 : JsonVal → Option ℚ
  | .num q => some q
  | _ => none

/-- `serde` `u32` field: integral number in `[0, 2^32)`. -/
def parseU32 : JsonVal → Option Nat
  | .num q => if q.den = 1 ∧ 0 ≤ q.num ∧ q.num < 2 ^ 32 then some q.num.toNat else none
  | _ => none

/-- `serde` `Vec<T>` field. -/
def parseList (p : JsonVal → Option α) : JsonVal → Option (List α)
  | .arr xs => xs.mapM p
  | _ => none

/-- Field lookup in a decoded object (serde sees each key once on the
engine's lines; first binding is taken). -/
def getField (fields : List (String × JsonVal)) (k : String) : Option JsonVal :=
  (fields.find? (fun f => f.1 = k)).map (·.2)

/-- A required field: absent or ill-typed ⇒ decode error. -/
def reqField (fields : List (String × JsonVal)) (k : String)
    (p : JsonVal → Option α) : Option α :=
  getField fields k >>= p

/-- A `#[serde(default)]` field of a non-`Option` type: absent ⇒ default,
present but ill-typed (including `null`) ⇒ decode error. -/
def defField (fields : List (String × JsonVal)) (k : String)
    (p : JsonVal → Option α) (d : α) : Option α :=
  match getField fields k with
  | none => some d
  | some v => p v

/-- A `#[serde(default)]` field of type `Option<T>`: absent or `null` ⇒
`none`, otherwise the value must decode as `T`. -/
def optField (fields : List (String × JsonVal)) (k : String)
    (p : JsonVal → Option α) : Option (Option α) :=
  match getField fields k with
  | none => some none
  | some .null => some none
  | some v => (p v).map some

/-- `KatagoMoveInfo` from `src/analysis_engine.rs` (floats as `ℚ`). -/
structure KatagoMoveInfo : Type where
  moveCoord : String
  visits : Nat
  winrate : ℚ
  scoreMean : ℚ
  scoreStdev : ℚ
  scoreLead : ℚ
  utility : ℚ
  utilityLcb : ℚ
  lcb : ℚ
  prior : ℚ
  humanPrior : Option ℚ
  order : Nat
  pv : List String
  pvVisits : Option (List Nat)
deriving Repr, DecidableEq

/-- `KatagoRootInfo` from `src/analysis_engine.rs`. -/
structure KatagoRootInfo : Type where
  winrate : ℚ
  scoreLead : ℚ
  utility : ℚ
  visits : Nat
  currentPlayer : String
  rawWinrate : Option ℚ
  rawScoreMean : Option ℚ
  rawStScoreError : Option ℚ
  humanWinrate : Option ℚ
  humanScoreMean : Option ℚ
  humanScoreStdev : Option ℚ
deriving Repr, DecidableEq

/-- `AnalysisResult` from `src/analysis_engine.rs`: only `id` is required;
every other field carries `#[serde(default)]`. -/
structure AnalysisResult : Type where
  id : String
  turnNumber : Nat
  moveInfos : List KatagoMoveInfo
  rootInfo : Option KatagoRootInfo
  ownership : Option (List ℚ)
  policy : Option (List ℚ)
  humanPolicy : Option (List ℚ)
deriving Repr, DecidableEq

/-- serde decode of one `moveInfos` element (field names in camelCase;
`move` is renamed). -/
def parseMoveInfo : JsonVal → Option KatagoMoveInfo
  | .obj fs => do
      let moveCoord ← reqField fs "move" parseStr
      let visits ← reqField fs "visits" parseU32
      let winrate ← reqField fs "winrate" parseF32
      let scoreMean ← reqField fs "scoreMean" parseF32
      let scoreStdev ← defField fs "scoreStdev" parseF32 0
      let scoreLead ← reqField fs "scoreLead" parseF32
      let utility ← defField fs "utility" parseF32 0
      let utilityLcb ← defField fs "utilityLcb" parseF32 0
      let lcb ← reqField fs "lcb" parseF32
      let prior ← reqField fs "prior" parseF32
      let humanPrior ← optField fs "humanPrior" parseF32
      let order ← reqField fs "order" parseU32
      let pv ← defField fs "pv" (parseList parseStr) []
      let pvVisits ← optField fs "pvVisits" (parseList parseU32)
      pure ⟨moveCoord, visits, winrate, scoreMean, scoreStdev, scoreLead,
            utility, utilityLcb, lcb, prior, humanPrior, order, pv, pvVisits⟩
  | _ => none

/-- serde decode of `rootInfo`. -/
def parseRootInfo : JsonVal → Option KatagoRootInfo
  | .obj fs => do
      let winrate ← reqField fs "winrate" parseF32
      let scoreLead ← reqField fs "scoreLead" parseF32
      let utility ← defField fs "utility" parseF32 0
      let visits ← reqField fs "visits" parseU32
      let currentPlayer ← reqField fs "currentPlayer" parseStr
      let rawWinrate ← optField fs "rawWinrate" parseF32
      let rawScoreMean ← optField fs "rawScoreMean" parseF32
      let rawStScoreError ← optField fs "rawStScoreError" parseF32
      let humanWinrate ← optField fs "humanWinrate" parseF32
      let humanScoreMean ← optField fs "humanScoreMean" parseF32
      let humanScoreStdev ← optField fs "humanScoreStdev" parseF32
      pure ⟨winrate, scoreLead, utility, visits, currentPlayer, rawWinrate,
            rawScoreMean, rawStScoreError, humanWinrate, humanScoreMean,
            humanScoreStdev⟩
  | _ => none

/-- serde decode of a whole response line into `AnalysisResult`.  Unknown
top-level fields (in particular `error`) are tolerated and ignored. -/
def parseAnalysisResult : JsonVal → Option AnalysisResult
  | .obj fs => do
      let id ← reqField fs "id" parseStr
      let turnNumber ← defField fs "turnNumber" parseU32 0
      let moveInfos ← defField fs "moveInfos" (parseList parseMoveInfo) []
      let rootInfo ← optField fs "rootInfo" parseRootInfo
      let ownership ← optField fs "ownership" (parseList parseF32)
      let policy ← optField fs "policy" (parseList parseF32)
      let humanPolicy ← optField fs "humanPolicy" (parseList parseF32)
      pure ⟨id, turnNumber, moveInfos, rootInfo, ownership, policy, humanPolicy⟩
  | _ => none

/-- Decoding of a delivered line in `wait_for_response`: first try the
result schema; on failure, reparse as a generic value (always succeeds for
a delivered line, which the reader already decoded) and look for a
top-level `error` field; `ENGINE_ERROR` only on that path, else
`PROTOCOL_ERROR`.  The `ParseError` detail string of `serde` is abstracted
to a fixed message; no claim depends on its text. -/
def handleResponse (line : JsonVal) : Except KatagoError AnalysisResult :=
  match parseAnalysisResult line with
  | some result => .ok result
  | none =>
      match jsonGet line "error" with
      | some errMsg => .error (.responseError (jsonToString errMsg))
      | none => .error (.parseError "failed to decode analysis result")

/-! ### `wait_for_response` -/

/-- How the await on the oneshot receiver resolves, within the deadline:
a line is delivered, the sender is dropped, or the deadline elapses. -/
inductive AwaitOutcome : Type
  | delivered (line : JsonVal)
  | senderDropped
  | elapsed

/-- The outcome branch of `wait_for_response` (the registration at its
entry is `registerWaiter`).  `t` is the pending table at resolution time:
on delivery the reader has already removed the entry; on `elapsed` the
waiter removes its own registration before returning `Timeout`. -/
def waitForResponse (t : PendingTable) (id : String) (timeoutSecs : Nat) :
    AwaitOutcome → PendingTable × Except KatagoError AnalysisResult
  | .delivered line => (t, handleResponse line)
  | .senderDropped => (t, .error .processDied)
  | .elapsed => (tableRemove t id, .error (.timeout timeoutSecs))

/-! ### The request shape and the query builder of `analyze` -/

/-- `AnalysisRequest` from `src/api.rs`, restricted to the fields `analyze`
reads (the remaining fields — `analyzeTurns`, temperatures, move filters,
priority, … — are never read by `analysis_engine.rs` and are omitted). -/
structure AnalysisRequest : Type where
  moves : List String
  rules : Option String
  komi : Option ℚ
  boardXSize : Nat
  boardYSize : Nat
  initialStones : Option (List (String × String))
  initialPlayer : Option String
  maxVisits : Option Nat
  includeOwnership : Option Bool
  includePolicy : Option Bool
  includePvVisits : Option Bool
  overrideSettings : Option JsonVal
  requestId : Option String

/-- `AnalysisQuery` from `src/analysis_engine.rs` (the JSON line sent to
the engine); each `moves` entry is the two-element vector `[color, coord]`. -/
structure AnalysisQuery : Type where
  id : String
  initialStones : List (List String)
  moves : List (List String)
  rules : String
  komi : ℚ
  boardXSize : Nat
  boardYSize : Nat
  analyzeTurns : Option (List Nat)
  maxVisits : Option Nat
  includeOwnership : Option Bool
  includePolicy : Option Bool
  includePvVisits : Option Bool
  overrideSettings : Option JsonVal

/-- `has_handicap` in `analyze`: initial stones present and non-empty. -/
def hasHandicap (req : AnalysisRequest) : Bool :=
  (req.initialStones.map (fun s => !s.isEmpty)).getD false

/-- `first_player` in `analyze`: the caller-supplied initial player
lowercased when present (Rust `to_lowercase`; ASCII-equivalent on the
colors), else `"w"` in handicap games, else `"b"`. -/
def firstPlayer (req : AnalysisRequest) : String :=
  match req.initialPlayer with
  | some p => p.toLower
  | none => if hasHandicap req then "w" else "b"

/-- The color-flip in `analyze`'s move loop:
`color = if color == "b" { "w" } else { "b" }`. -/
def nextColor (c : String) : String :=
  if c = "b" then "w" else "b"

/-- `analyze`'s move loop: pair each move with the alternating color,
starting from `c`. -/
def katagoMoves (c : String) : List String → List (List String)
  | [] => []
  | mv :: rest => [c, mv] :: katagoMoves (nextColor c) rest

/-- The rules default in `analyze` when the request leaves rules
unspecified: `komi == komi.floor() || (komi - 6.5).abs() < 0.01`.
The `f32` operations are exact at every value within `0.01` of the
branch boundaries, so the `ℚ` model is faithful. -/
def defaultRules (komi : ℚ) : String :=
  if komi = (⌊komi⌋ : ℚ) ∨ |komi - 13/2| < 1/100 then "japanese" else "chinese"

/-- The pure query construction of `analyze` (everything before
`send_query`).  `generatedId` stands for the fresh UUID used when the
caller supplies no id. -/
def buildQuery (generatedId : String) (req : AnalysisRequest) : AnalysisQuery where
  id := req.requestId.getD generatedId
  initialStones := (req.initialStones.getD []).map (fun p => [p.1, p.2])
  moves := katagoMoves (firstPlayer req) req.moves
  rules := req.rules.getD (defaultRules (req.komi.getD (15/2)))
  komi := req.komi.getD (15/2)
  boardXSize := req.boardXSize
  boardYSize := req.boardYSize
  analyzeTurns := none
  maxVisits := some (req.maxVisits.getD 10)
  includeOwnership := req.includeOwnership
  includePolicy := req.includePolicy
  includePvVisits := req.includePvVisits
  overrideSettings := req.overrideSettings

/-! ### Move validation (`is_valid_move`) -/

/-- `str::eq_ignore_ascii_case` (byte-wise on ASCII inputs;
`Char.toLower` is likewise ASCII-only). -/
def eqIgnoreAsciiCase (a b : String) : Bool :=
  a.data.map Char.toLower = b.data.map Char.toLower

/-- Rust `u8::from_str`: optional leading `+`, one or more digits, value
at most `255`. -/
def parseU8 (s : String) : Option Nat :=
  let digits := match s.data with
    | '+' :: rest => rest
    | l => l
  if digits.isEmpty then none
  else if digits.all (·.isDigit) then
    let v := digits.foldl (fun a c => a * 10 + (c.toNat - 48)) 0
    if v ≤ 255 then some v else none
  else none

/-- The column computation of `is_valid_move` under release-profile
(wrapping) `u8` arithmetic: `col_char as u8 - b'A' (+ 1)`; `none` for the
excluded column `I`.  `c.toNat % 256` is the `as u8` truncation. -/
def colNum (c : Char) : Option Nat :=
  if c < 'I' then some (((c.toNat % 256 + 256 - 65) % 256 + 1) % 256)
  else if c > 'I' then some ((c.toNat % 256 + 256 - 65) % 256)
  else none

/-- In a debug profile the same subtraction `col_char as u8 - b'A'` panics
on underflow; this predicate marks exactly the inputs on which the
column arithmetic of `is_valid_move` underflows. -/
def colUnderflows (s : String) : Bool :=
  if s.data.length < 2 then false
  else if eqIgnoreAsciiCase s "pass" then false
  else
    match s.data with
    | [] => false
    | c0 :: _ =>
        let c := c0.toUpper
        if c = 'I' then false else decide (c.toNat % 256 < 65)

/-- `is_valid_move` from `src/analysis_engine.rs`, with release-profile
wrapping arithmetic.  String length and `[1..]` slicing are byte-based in
Rust and char-based here; they coincide on ASCII inputs, to which the
theorems below restrict themselves. -/
def isValidMove (s : String) (boardXSize boardYSize : Nat) : Bool :=
  if s.data.length < 2 then false
  else if eqIgnoreAsciiCase s "pass" then true
  else
    match s.data with
    | [] => false
    | c0 :: rest =>
        let rowStr : String := ⟨rest⟩
        match colNum c0.toUpper with
        | none => false
        | some n =>
            if boardXSize < n then false
            else match parseU8 rowStr with
              | some r => decide (1 ≤ r ∧ r ≤ boardYSize)
              | none => false

/-- The validation loop at the top of `analyze`: each invalid move only
produces a `warn!` log line; nothing is returned.  The warnings are the
invalid moves, in order. -/
def validationWarnings (req : AnalysisRequest) : List String :=
  req.moves.filter (fun mv => !isValidMove mv req.boardXSize req.boardYSize)

/-- The pure front of `analyze`: the emitted warnings and the query that
is sent.  Total — no error path exists between validation and
`send_query`. -/
def analyzePrepare (generatedId : String) (req : AnalysisRequest) :
    List String × AnalysisQuery :=
  (validationWarnings req, buildQuery generatedId req)

/-! ### `send_query` (the write path) -/

/-- The state `send_query` touches: the liveness flag and whether the
stdin handle is present. -/
structure SendState : Type where
  alive : Bool
  stdinPresent : Bool
deriving Repr, DecidableEq

/-- How the I/O of one send resolves (environment choice); error
outcomes carry the OS message. -/
inductive WriteOutcome : Type
  | ok
  | writeErr (msg : String)
  | flushErr (msg : String)

/-- `send_query`: fail fast with `ProcessDied` when the flag is false or
stdin is absent; a `writeln!` error propagates through `?` as
`IoError` (the flag is left untouched); a `flush` error stores `false`
into the flag and returns `ProcessDied`. -/
def sendQuery (s : SendState) : WriteOutcome → SendState × Option KatagoError
  | w =>
    if !s.alive then (s, some .processDied)
    else if !s.stdinPresent then (s, some .processDied)
    else
      match w with
      | .ok => (s, none)
      | .writeErr msg => (s, some (.ioError msg))
      | .flushErr _ => ({ s with alive := false }, some .processDied)

/-! ### The supervisor loop (`process_monitor_loop`) -/

/-- The supervisor state across iterations: the restart counter, the
shared liveness flag and stdin presence.  `MAX_RESTART_ATTEMPTS = 5`. -/
structure SupState : Type where
  restartCount : Nat
  alive : Bool
  stdinPresent : Bool
deriving Repr, DecidableEq

/-- Environment outcomes one tick can encounter: whether a spawn attempt
succeeds and whether the ping's write and flush succeed. -/
structure TickEnv : Type where
  restartOk : Bool
  writeOk : Bool
  flushOk : Bool
deriving Repr, DecidableEq

/-- One iteration of `process_monitor_loop` after the sleep.  Returns the
new state and whether a restart (spawn) was attempted.
Dead with counter at the cap: log and `continue` — no attempt, nothing
changes.  Dead under the cap: attempt a spawn; on success install stdin,
set the flag true and increment the counter; on failure increment the
counter.  Alive: send the ping; a write or flush failure stores `false`
into the flag; success resets the counter to zero. -/
def monitorTick (s : SupState) (e : TickEnv) : SupState × Bool :=
  if !s.alive then
    if 5 ≤ s.restartCount then (s, false)
    else if e.restartOk then
      ({ restartCount := s.restartCount + 1, alive := true, stdinPresent := true }, true)
    else
      ({ s with restartCount := s.restartCount + 1 }, true)
  else
    if s.stdinPresent then
      if !e.writeOk then ({ s with alive := false }, false)
      else if !e.flushOk then ({ s with alive := false }, false)
      else ({ s with restartCount := 0 }, false)
    else (s, false)

/-- Iterated supervisor ticks; the boolean records whether any tick in
the run attempted a restart. -/
def runTicks (s : SupState) : List TickEnv → SupState × Bool
  | [] => (s, false)
  | e :: es =>
      let (s', a) := monitorTick s e
      let (s'', b) := runTicks s' es
      (s'', a || b)

/-! ### The incarnation/pending-table system

A transition system over the shared state touched by the stdout reader
(`spawn_reader_threads`), the waiters (`wait_for_response`) and the
supervisor restart path, tracking which incarnation each waiter
registered under and which incarnation fulfilled it. -/

/-- Shared engine state: the liveness flag, the current incarnation
number (bumped on each successful restart), the pending table tagged
with registration incarnations, and a log of fulfilled deliveries
`(id, incarnation at registration, incarnation at delivery)`. -/
structure EngineSys : Type where
  alive : Bool
  incarnation : Nat
  pending : List (String × Nat)
  delivered : List (String × Nat × Nat)
deriving Repr, DecidableEq

/-- Events on the shared state:
`register` — `wait_for_response` inserts its sender (replacing any
existing binding, as `HashMap::insert` does);
`deliver` — the reader routes an output line carrying this id and, if it
is pending, removes it and fulfills its slot;
`timeoutFire` — a waiter's deadline elapses and it removes its own entry;
`death` — the reader hits EOF or a read error: it stores `false` into the
liveness flag and exits (nothing else);
`restart` — the supervisor respawns: flag true, next incarnation, and the
pending table is carried over untouched. -/
inductive SysEvent : Type
  | register (id : String)
  | deliver (id : String)
  | timeoutFire (id : String)
  | death
  | restart

/-- One transition of the shared engine state. -/
def sysStep (s : EngineSys) : SysEvent → EngineSys
  | .register id =>
      { s with pending := (id, s.incarnation) :: s.pending.filter (fun e => e.1 ≠ id) }
  | .deliver id =>
      match s.pending.find? (fun e => e.1 = id) with
      | some entry =>
          { s with
            pending := s.pending.filter (fun e => e.1 ≠ id)
            delivered := (id, entry.2, s.incarnation) :: s.delivered }
      | none => s
  | .timeoutFire id =>
      { s with pending := s.pending.filter (fun e => e.1 ≠ id) }
  | .death => { s with alive := false }
  | .restart =>
      if s.alive then s
      else { s with alive := true, incarnation := s.incarnation + 1 }

/-- Iterated transitions. -/
def sysRun (s : EngineSys) : List SysEvent → EngineSys
  | [] => s
  | e :: es => sysRun (sysStep s e) es

/-- The state after `start_process` succeeds: alive, incarnation 0,
no pending requests, nothing delivered. -/
def sysInit : EngineSys :=
  { alive := true, incarnation := 0, pending := [], delivered := [] }

/-! ## Helper lemmas -/

theorem tableLookup_remove (t : PendingTable) (id : String) :
    tableLookup (tableRemove t id) id = none := by
  unfold tableLookup tableRemove
  rw [Option.map_eq_none', List.find?_eq_none]
  intro x hx
  simp only [List.mem_filter, decide_eq_true_eq] at hx
  simp [hx.2]

theorem tableLookup_insert (t : PendingTable) (id : String) (slot : Slot) :
    tableLookup (tableInsert t id slot) id = some slot := by
  simp [tableLookup, tableInsert, List.find?_cons]

/-! ## Claims -/

/-- **C2, counterexample.** With the id `"dup"` already present in the
pending table, the registration step of `wait_for_response` does not fail
with any error (in particular no `DUPLICATE_ID`, a variant `KatagoError`
does not even have); it succeeds and silently replaces the pre-existing
entry, whose slot changes from `0` to `1`. -/
theorem registerWaiter_duplicate_overwrites :
    tableLookup [("dup", 0)] "dup" = some 0 ∧
    registerWaiter [("dup", 0)] "dup" 1 = ([("dup", 1)], .ok ()) ∧
    tableLookup (registerWaiter [("dup", 0)] "dup" 1).1 "dup" = some 1 := by
  refine ⟨rfl, ?_, rfl⟩
  rfl

/-- **C2, amended.** Registration never fails: for every pending table,
id and slot — also when the id is already present — the registration step
returns success, and afterwards the table maps the id to the *new* slot
(the pre-existing sender, if any, is dropped by the replacement, so a
previously registered waiter observes a closed channel, not an error
reported to the new caller). -/
theorem registerWaiter_always_succeeds (t : PendingTable) (id : String) (slot : Slot) :
    (registerWaiter t id slot).2 = .ok () ∧
    tableLookup (registerWaiter t id slot).1 id = some slot :=
  ⟨rfl, tableLookup_insert t id slot⟩

/-- **C5, counterexample.** With the engine alive and stdin present, an
error on the `writeln!` call propagates as `IoError` — not `ProcessDied`
(`ENGINE_DEAD`) — and leaves the liveness flag `true`, contrary to the
claim that any write error transitions the flag to false and returns
`ENGINE_DEAD`. -/
theorem sendQuery_writeErr_not_engine_dead :
    sendQuery ⟨true, true⟩ (.writeErr "broken pipe") =
      (⟨true, true⟩, some (.ioError "broken pipe")) ∧
    KatagoError.ioError "broken pipe" ≠ KatagoError.processDied := by
  exact ⟨rfl, by decide⟩

/-- **C5, amended.** On the write path, only a *flush* error transitions
the liveness flag to false and returns `ENGINE_DEAD`; an error on the
*write* itself is returned as `IO_ERROR` with the flag left untouched. -/
theorem sendQuery_error_behaviour (s : SendState) (msg : String)
    (halive : s.alive = true) (hstdin : s.stdinPresent = true) :
    sendQuery s (.flushErr msg) = ({ s with alive := false }, some .processDied) ∧
    sendQuery s (.writeErr msg) = (s, some (.ioError msg)) ∧
    (sendQuery s (.writeErr msg)).1.alive = true := by
  obtain ⟨a, st⟩ := s
  subst halive hstdin
  exact ⟨rfl, rfl, rfl⟩

/-- **C5, witness.** The amended statement at a concrete live state. -/
theorem sendQuery_error_behaviour_witness :
    sendQuery ⟨true, true⟩ (.flushErr "pipe closed") =
      (⟨false, true⟩, some .processDied) ∧
    sendQuery ⟨true, true⟩ (.writeErr "pipe closed") =
      (⟨true, true⟩, some (.ioError "pipe closed")) ∧
    (sendQuery ⟨true, true⟩ (.writeErr "pipe closed")).1.alive = true :=
  sendQuery_error_behaviour ⟨true, true⟩ "pipe closed" rfl rfl

/-- **C6, confirmed.** When the deadline elapses in `wait_for_response`
(called by `analyze` with the configured `move_timeout_secs`), the call
returns `Timeout` carrying exactly that configured number of seconds, and
the pending table at return contains no entry for the call's correlation
id — whatever the table held before. -/
theorem waitForResponse_timeout (t : PendingTable) (id : String) (cfg : KatagoConfig) :
    (waitForResponse t id cfg.moveTimeoutSecs .elapsed).2 =
      .error (.timeout cfg.moveTimeoutSecs) ∧
    tableLookup (waitForResponse t id cfg.moveTimeoutSecs .elapsed).1 id = none :=
  ⟨rfl, tableLookup_remove t id⟩

/-- **C1, counterexample.** A waiter registers `"x"` under incarnation 0,
the engine dies, the supervisor restarts it (incarnation 1), and the new
incarnation's reader emits a line with id `"x"`: after the death
transition the entry is still in the pending table (the claim says every
entry is removed and its slot closed), and the waiter then receives a
response from incarnation 1 — a later incarnation than the one it
registered under. -/
theorem death_leaves_waiter_for_next_incarnation :
    (sysRun sysInit [.register "x", .death]).pending = [("x", 0)] ∧
    (sysRun sysInit [.register "x", .death]).alive = false ∧
    (sysRun sysInit
        [.register "x", .death, .restart, .deliver "x"]).delivered = [("x", 0, 1)] :=
  ⟨rfl, rfl, rfl⟩

/-- **C1, amended.** When the liveness flag transitions to false (engine
death or stream EOF), the pending-request table is left entirely
untouched — no entry is removed and no slot is closed.  A waiter
registered before the death therefore observes cancellation only if its
own deadline elapses or its sender is dropped; its entry survives into
the next incarnation and can be fulfilled by a response line from a later
engine incarnation (as the counterexample trace shows). -/
theorem death_transition_no_drain (s : EngineSys) :
    (sysStep s .death).alive = false ∧
    (sysStep s .death).pending = s.pending ∧
    (sysStep s .death).delivered = s.delivered ∧
    (sysStep s .death).incarnation = s.incarnation :=
  ⟨rfl, rfl, rfl, rfl⟩

/-- A delivered line carrying a top-level `error` field — exactly the
shape the engine uses to report a request-level error. -/
def c3ErrorLine : JsonVal :=
  .obj [("id", .str "q1"), ("error", .str "illegal move")]

/-- **C3, counterexample.** The delivered line
`{"id":"q1","error":"illegal move"}` contains a top-level `error` field,
yet `wait_for_response` returns a *success* result (serde tolerates the
unknown `error` field and defaults every missing field, so the line
decodes as the result schema first), not `ENGINE_ERROR`. -/
theorem handleResponse_error_line_is_success :
    jsonGet c3ErrorLine "error" = some (.str "illegal move") ∧
    handleResponse c3ErrorLine = .ok ⟨"q1", 0, [], none, none, none, none⟩ :=
  ⟨rfl, rfl⟩

/-- **C3, amended.** A delivered line containing a top-level `error`
field yields `ENGINE_ERROR` carrying that message exactly when the line
fails to decode as the result schema; when it does decode (which happens
whenever `id` is a string and every recognised field is well-typed, the
`error` field being ignored), the call returns that success result
instead. -/
theorem handleResponse_error_field (line : JsonVal) (m : JsonVal)
    (herr : jsonGet line "error" = some m) :
    (parseAnalysisResult line = none →
      handleResponse line = .error (.responseError (jsonToString m))) ∧
    (∀ r, parseAnalysisResult line = some r → handleResponse line = .ok r) := by
  constructor
  · intro hp
    simp [handleResponse, hp, herr]
  · intro r hp
    simp [handleResponse, hp]

/-- A line with an `error` field that also fails the result schema
(`turnNumber` ill-typed). -/
def c3WitnessLine : JsonVal :=
  .obj [("id", .str "q1"), ("error", .str "boom"), ("turnNumber", .str "bad")]

/-- **C3, witness.** The amended statement at a concrete line: the schema
decode fails, so the `error` field is surfaced as `ENGINE_ERROR`. -/
theorem handleResponse_error_field_witness :
    handleResponse c3WitnessLine = .error (.responseError "\"boom\"") := by
  have h := (handleResponse_error_field c3WitnessLine (.str "boom") rfl).1 rfl
  rw [h]
  simp [jsonToString, escapeJsonChar]
  rfl

/-- **C8, confirmed.** In the supervisor loop: (a) whenever the engine is
alive and the keepalive ping's write and flush both succeed, the restart
counter is reset to zero (and no restart is attempted that tick); (b)
once the counter has reached the cap of 5 while the engine is dead, no
tick of any subsequent run ever attempts a restart and the observed state
never changes — the loop keeps ticking and observing. -/
theorem supervisor_counter_reset_and_cap :
    (∀ (s : SupState) (e : TickEnv), s.alive = true → s.stdinPresent = true →
      e.writeOk = true → e.flushOk = true →
      (monitorTick s e).1.restartCount = 0 ∧ (monitorTick s e).2 = false) ∧
    (∀ (s : SupState) (es : List TickEnv), s.alive = false → 5 ≤ s.restartCount →
      runTicks s es = (s, false)) := by
  constructor
  · intro s e ha hs hw hf
    obtain ⟨c, a, st⟩ := s
    obtain ⟨r, w, f⟩ := e
    simp only at ha hs hw hf
    subst ha hs hw hf
    exact ⟨rfl, rfl⟩
  · intro s es ha h5
    induction es with
    | nil => rfl
    | cons e es ih =>
      have hstep : monitorTick s e = (s, false) := by
        obtain ⟨c, a, st⟩ := s
        simp only at ha
        subst ha
        simp only at h5
        simp [monitorTick, h5]
      simp [runTicks, hstep, ih]

/-- **C8, witness.** The reset at a live state with counter 3, and a
two-tick doomed run from a dead state at the cap: state frozen, no
restart attempted. -/
theorem supervisor_counter_reset_and_cap_witness :
    (monitorTick ⟨3, true, true⟩ ⟨true, true, true⟩).1.restartCount = 0 ∧
    runTicks ⟨5, false, true⟩ [⟨false, true, true⟩, ⟨true, true, true⟩] =
      (⟨5, false, true⟩, false) :=
  ⟨(supervisor_counter_reset_and_cap.1 ⟨3, true, true⟩ ⟨true, true, true⟩
      rfl rfl rfl rfl).1,
   supervisor_counter_reset_and_cap.2 ⟨5, false, true⟩
      [⟨false, true, true⟩, ⟨true, true, true⟩] rfl (by norm_num)⟩

/-- The komi condition in the claim's words (spec side, for comparison
with `defaultRules` from the source): komi is an integer, or `x.5` with
`x` even. -/
def komiParityJapanese (komi : ℚ) : Prop :=
  (∃ n : ℤ, komi = (n : ℚ)) ∨ ∃ x : ℤ, Even x ∧ komi = (x : ℚ) + 1/2

/-- A request with unspecified rules and komi 4.5. -/
def c4Request : AnalysisRequest :=
  { moves := [], rules := none, komi := some (9/2), boardXSize := 19,
    boardYSize := 19, initialStones := none, initialPlayer := none,
    maxVisits := none, includeOwnership := none, includePolicy := none,
    includePvVisits := none, overrideSettings := none, requestId := none }

/-- **C4, counterexample.** Komi 4.5 is `x.5` with `x = 4` even, so the
claim demands rules `"japanese"`; the code compares the komi only against
its floor and against 6.5 (`(komi - 6.5).abs() < 0.01`), so the query is
sent with rules `"chinese"`. -/
theorem rules_parity_counterexample :
    komiParityJapanese (9/2) ∧ (buildQuery "gen" c4Request).rules = "chinese" := by
  constructor
  · exact Or.inr ⟨4, by decide, by norm_num⟩
  · have hb : (buildQuery "gen" c4Request).rules = defaultRules (9/2) := rfl
    have hf : ⌊(9/2 : ℚ)⌋ = 4 := by norm_num [Int.floor_eq_iff]
    rw [hb]
    unfold defaultRules
    rw [hf, if_neg]
    norm_num [abs_sub_lt_iff]

/-- **C4, amended.** For every analyze request that leaves rules
unspecified, the query is sent with rules `"japanese"` exactly when the
komi (defaulted to 7.5 when unspecified) is an integer or lies within
0.01 of 6.5, and with rules `"chinese"` otherwise. -/
theorem rules_default_by_komi (req : AnalysisRequest) (g : String)
    (h : req.rules = none) :
    ((buildQuery g req).rules = "japanese" ∨ (buildQuery g req).rules = "chinese") ∧
    ((buildQuery g req).rules = "japanese" ↔
      ((∃ n : ℤ, req.komi.getD (15/2) = (n : ℚ)) ∨
        |req.komi.getD (15/2) - 13/2| < 1/100)) := by
  have hb : (buildQuery g req).rules = defaultRules (req.komi.getD (15/2)) := by
    simp [buildQuery, h]
  rw [hb]
  unfold defaultRules
  by_cases hc : req.komi.getD (15/2) = (⌊req.komi.getD (15/2)⌋ : ℚ) ∨
      |req.komi.getD (15/2) - 13/2| < 1/100
  · rw [if_pos hc]
    refine ⟨Or.inl rfl, fun _ => ?_, fun _ => rfl⟩
    rcases hc with hfl | habs
    · exact Or.inl ⟨⌊req.komi.getD (15/2)⌋, hfl⟩
    · exact Or.inr habs
  · rw [if_neg hc]
    refine ⟨Or.inr rfl, fun hj => absurd hj (by decide), fun hp => ?_⟩
    exfalso
    apply hc
    rcases hp with ⟨n, hn⟩ | habs
    · left
      rw [hn]
      simp
    · exact Or.inr habs

/-- A request with unspecified rules and komi 6.5. -/
def c4WitnessRequest : AnalysisRequest :=
  { moves := [], rules := none, komi := some (13/2), boardXSize := 19,
    boardYSize := 19, initialStones := none, initialPlayer := none,
    maxVisits := none, includeOwnership := none, includePolicy := none,
    includePvVisits := none, overrideSettings := none, requestId := none }

/-- **C4, witness.** At komi 6.5 the amended rule yields `"japanese"`. -/
theorem rules_default_by_komi_witness :
    (buildQuery "gen" c4WitnessRequest).rules = "japanese" :=
  (rules_default_by_komi c4WitnessRequest "gen" rfl).2.mpr
    (Or.inr (by norm_num [c4WitnessRequest]))

/-- The first player in the claim's words (spec side): the caller-supplied
initial player lowercased when present, else `"w"` when initial stones
are present and non-empty, else `"b"`. -/
def claimFirstPlayer (req : AnalysisRequest) : String :=
  match req.initialPlayer with
  | some p => p.toLower
  | none => if (req.initialStones.getD []).isEmpty then "b" else "w"

theorem firstPlayer_eq_claim (req : AnalysisRequest) :
    firstPlayer req = claimFirstPlayer req := by
  unfold firstPlayer claimFirstPlayer hasHandicap
  cases req.initialPlayer with
  | some p => rfl
  | none =>
    cases req.initialStones with
    | none => rfl
    | some st =>
      cases h : st.isEmpty <;> simp [h]

theorem katagoMoves_length (c : String) (ms : List String) :
    (katagoMoves c ms).length = ms.length := by
  induction ms generalizing c with
  | nil => rfl
  | cons m rest ih => simp [katagoMoves, ih]

theorem katagoMoves_getElem (ms : List String) : ∀ (c : String),
    (c = "b" ∨ c = "w") → ∀ (i : Nat) (mv : String), ms[i]? = some mv →
    (katagoMoves c ms)[i]? = some [if i % 2 = 0 then c else nextColor c, mv] := by
  induction ms with
  | nil =>
    intro c _ i mv h
    simp at h
  | cons m rest ih =>
    intro c hc i mv h
    cases i with
    | zero =>
      simp only [List.getElem?_cons_zero, Option.some.injEq] at h
      subst h
      simp [katagoMoves]
    | succ j =>
      simp only [List.getElem?_cons_succ] at h
      have hc' : nextColor c = "b" ∨ nextColor c = "w" := by
        rcases hc with h1 | h1 <;> rw [h1]
        · exact Or.inr rfl
        · exact Or.inl rfl
      have hrec := ih (nextColor c) hc' j mv h
      have hnn : nextColor (nextColor c) = c := by
        rcases hc with h1 | h1 <;> rw [h1] <;> rfl
      simp only [katagoMoves, List.getElem?_cons_succ]
      by_cases hj : j % 2 = 0
      · have hpar : (j + 1) % 2 = 1 := by omega
        rw [hrec, hpar]
        simp [hj]
      · have hj1 : j % 2 = 1 := by omega
        have hpar : (j + 1) % 2 = 0 := by omega
        rw [hrec, hpar]
        simp [hj1, hnn]

/-- **C7, confirmed** (for requests whose determined first player is a
color, which covers every caller-supplied `b`/`w`/`B`/`W` and both
inferred defaults).  The i-th entry of the query's move list pairs the
first player's color (even i) or its opposite (odd i) with the i-th
request move, unchanged and in order; the first player is the
caller-supplied initial player lowercased when present, else `"w"` when
initial stones are present and non-empty, else `"b"`. -/
theorem analyze_move_coloring (req : AnalysisRequest) (g : String)
    (h : claimFirstPlayer req = "b" ∨ claimFirstPlayer req = "w") :
    (buildQuery g req).moves.length = req.moves.length ∧
    ∀ (i : Nat) (mv : String), req.moves[i]? = some mv →
      (buildQuery g req).moves[i]? =
        some [if i % 2 = 0 then claimFirstPlayer req
              else nextColor (claimFirstPlayer req), mv] := by
  have hfp := firstPlayer_eq_claim req
  constructor
  · show (katagoMoves (firstPlayer req) req.moves).length = req.moves.length
    exact katagoMoves_length _ _
  · intro i mv hmv
    have hrec := katagoMoves_getElem req.moves (claimFirstPlayer req) h i mv hmv
    show (katagoMoves (firstPlayer req) req.moves)[i]? = _
    rw [hfp]
    exact hrec

/-- A plain even-game request: three moves, no initial player, no stones. -/
def c7WitnessRequest : AnalysisRequest :=
  { moves := ["D4", "Q16", "C3"], rules := none, komi := none,
    boardXSize := 19, boardYSize := 19, initialStones := none,
    initialPlayer := none, maxVisits := none, includeOwnership := none,
    includePolicy := none, includePvVisits := none,
    overrideSettings := none, requestId := none }

/-- **C7, witness.** Black opens; the second move (index 1) is paired
with White. -/
theorem analyze_move_coloring_witness :
    (buildQuery "gen2" c7WitnessRequest).moves.length = 3 ∧
    (buildQuery "gen2" c7WitnessRequest).moves[1]? = some ["w", "Q16"] := by
  have h := analyze_move_coloring c7WitnessRequest "gen2" (Or.inl rfl)
  refine ⟨h.1.trans rfl, ?_⟩
  rw [h.2 1 "Q16" rfl]
  decide

theorem katagoMoves_coords (c : String) (ms : List String) :
    (katagoMoves c ms).map (fun e => e.getD 1 "") = ms := by
  induction ms generalizing c with
  | nil => rfl
  | cons m rest ih =>
    simp only [katagoMoves, List.map_cons]
    rw [ih]
    rfl

/-- **C9, confirmed.** An ill-formed move coordinate never fails the
call: the validation loop only records a warning (the invalid move
appears among the emitted warnings — `analyzePrepare` is total, there is
no error path between validation and `send_query`), and the query is
still built with the move coordinates passed through unchanged and in
order. -/
theorem invalid_move_only_warns (req : AnalysisRequest) (g : String) (mv : String)
    (hmem : mv ∈ req.moves)
    (hinv : isValidMove mv req.boardXSize req.boardYSize = false) :
    (analyzePrepare g req).2.moves.map (fun e => e.getD 1 "") = req.moves ∧
    mv ∈ (analyzePrepare g req).1 := by
  constructor
  · exact katagoMoves_coords _ _
  · simp [analyzePrepare, validationWarnings, List.mem_filter, hmem, hinv]

/-- A request whose move list contains the invalid coordinate `"I5"`
(column `I` never exists). -/
def c9WitnessRequest : AnalysisRequest :=
  { moves := ["I5", "D4"], rules := none, komi := none, boardXSize := 9,
    boardYSize := 9, initialStones := none, initialPlayer := none,
    maxVisits := none, includeOwnership := none, includePolicy := none,
    includePvVisits := none, overrideSettings := none, requestId := none }

/-- **C9, witness.** `"I5"` is invalid on a 9×9 board, yet the query is
built with both moves unchanged and `"I5"` is only warned about. -/
theorem invalid_move_only_warns_witness :
    (analyzePrepare "gen3" c9WitnessRequest).2.moves.map (fun e => e.getD 1 "") =
      ["I5", "D4"] ∧
    "I5" ∈ (analyzePrepare "gen3" c9WitnessRequest).1 := by
  have h := invalid_move_only_warns c9WitnessRequest "gen3" "I5" (by decide) (by decide)
  exact ⟨h.1.trans rfl, h.2⟩

/-- The 52 ASCII letters. -/
def asciiLetters : List Char :=
  "ABCDEFGHIJKLMNOPQRSTUVWXYZabcdefghijklmnopqrstuvwxyz".data

/-- **C10, counterexample.** On input `"55"` the column arithmetic of
`is_valid_move` underflows: the first character `'5'` has code 53, below
`b'A' = 65`, so `col_char as u8 - b'A'` wraps (and panics in a debug
profile) — the function is not underflow-free on arbitrary strings.
Under release (wrapping) semantics the call then returns `false`. -/
theorem is_valid_move_underflow_counterexample :
    colUnderflows "55" = true ∧ '5'.toUpper.toNat % 256 < 65 ∧
    isValidMove "55" 9 9 = false :=
  ⟨by decide, by decide, by decide⟩

/-- **C10, amended.** The column arithmetic of `is_valid_move` never
underflows for inputs shorter than two characters, equal to `"pass"`
case-insensitively, or whose first character is an ASCII letter (for
these the function totally returns `true` or `false`); for a first
character that uppercases below `'A'` — such as `'5'` in `"55"` or `'-'`
in `"-3"` — the `u8` subtraction underflows: a panic in debug builds and
a wraparound (with a `Bool` still returned) in release builds. -/
theorem col_arith_no_underflow_for_letters (s : String)
    (h : s.data.length < 2 ∨ eqIgnoreAsciiCase s "pass" = true ∨
      ∃ c rest, s.data = c :: rest ∧ c ∈ asciiLetters) :
    colUnderflows s = false := by
  unfold colUnderflows
  by_cases h1 : s.data.length < 2
  · rw [if_pos h1]
  · rw [if_neg h1]
    by_cases h2 : eqIgnoreAsciiCase s "pass" = true
    · rw [if_pos h2]
    · rw [if_neg h2]
      rcases h with h | h | ⟨c, rest, hdata, hc⟩
      · exact absurd h h1
      · exact absurd h h2
      · rw [hdata]
        have hall : asciiLetters.all
            (fun c => decide (c.toUpper = 'I') ||
              !(decide (c.toUpper.toNat % 256 < 65))) = true := by decide
        have hcp := List.all_eq_true.mp hall c hc
        by_cases hI : c.toUpper = 'I'
        · simp [hI]
        · have hnd : ¬(c.toUpper.toNat % 256 < 65) := by simpa [hI] using hcp
          simp [hI, hnd]

/-- **C10, witness.** The amended statement at the ordinary coordinate
`"D4"`. -/
theorem col_arith_no_underflow_witness : colUnderflows "D4" = false :=
  col_arith_no_underflow_for_letters "D4"
    (Or.inr (Or.inr ⟨'D', ['4'], rfl, by decide⟩))

end KatagoServer
